import Mathlib

/-!
Verification development for the circle-pinger repository (Go).

The definitions below are a shallow embedding of the Go sources:
  * `pinger/pinger.go`  — aggregator state, `logStats`, `Summarize`, `FormatMeta`,
    `Result.Avg`, protocol constants;
  * `tcp/tcp.go`        — the TCP / TCP+TLS probe;
  * `udp` package       — the UDP probe;
  * `http/http.go`      — the HTTP/HTTPS probe and its trace record.

Go `time.Duration` values (int64 nanoseconds) are modelled as `Int`, with the
int64 wrap-around made explicit (`wrap64`) exactly where Go arithmetic can
wrap.  Go errors are modelled by the inductive `GoError`; `fmt.Errorf` with a
`%w` verb is `GoError.wrapped`, and `errors.Is(err, context.Canceled)` is
`errorsIsCanceled` (it unwraps through the wrap chain, as `errors.Is` does).
Network effects are supplied by explicit oracle records (`TcpEnv`, `UdpEnv`,
`HttpEnv`): each field is the outcome of one system call the Go code makes,
and the model functions follow the control flow of the corresponding Go
function line by line.
-/

namespace CirclePinger

/-- Model of Go errors as used by this repository: `context.Canceled`,
`context.DeadlineExceeded`, an opaque error with a message (`errors.New` /
any foreign error), and `fmt.Errorf("...: %w", err)` wrapping, which keeps
a message part and the wrapped cause. -/
inductive GoError where
  | canceled : GoError
  | deadlineExceeded : GoError
  | errorString : String → GoError
  | wrapped : String → GoError → GoError
deriving Repr, DecidableEq

/-- Rendering of a `GoError` as `err.Error()` does in Go: a wrapped error
prepends its message part to the message of the cause. -/
def GoError.message : GoError → String
  | .canceled => "context canceled"
  | .deadlineExceeded => "context deadline exceeded"
  | .errorString s => s
  | .wrapped s e => s ++ e.message

/-- Model of `errors.Is(err, context.Canceled)`: true exactly when the error
is `context.Canceled` or wraps it (through any chain of `%w` wrapping). -/
def errorsIsCanceled : GoError → Bool
  | .canceled => true
  | .wrapped _ e => errorsIsCanceled e
  | .deadlineExceeded => false
  | .errorString _ => false

/-- Model of the values stored in `Stats.Extra` (`fmt.Stringer` in Go).
The repository stores three shapes there: a `meta.Meta` TLS-certificate
summary (`tcp/tcp.go` line 89), a `bytes.Buffer` one-line note
(`tcp/tcp.go` line 97), and a pointer to the HTTP `Trace` record
(`http/http.go` line 110). -/
inductive ExtraInfo where
  | certMeta (dnsNames : List String) (serverName : String) (version : Nat)
      (notBefore notAfter : Int) : ExtraInfo
  | text (s : String) : ExtraInfo
  | traceRef : ExtraInfo
deriving Repr, DecidableEq

/-- Model of `pinger.Stats` (`pinger/pinger.go` lines 141-149), the outcome of
one probe attempt.  `Meta` (a Go `map[string]fmt.Stringer`) is modelled as an
association list of key / rendered-value pairs whose order is the (arbitrary)
map iteration order; a `none` value models a nil `fmt.Stringer`. -/
structure Stats where
  Connected : Bool := false
  Error : Option GoError := none
  Duration : Int := 0
  DNSDuration : Int := 0
  Address : String := ""
  Meta : List (String × Option String) := []
  Extra : Option ExtraInfo := none
deriving Repr, DecidableEq

/-- Largest int64 value, `math.MaxInt64`. -/
def maxInt64 : Int := 2 ^ 63 - 1

/-- Go int64 addition wraps; `wrap64` reduces an integer into the int64
range the way Go two-s-complement arithmetic does. -/
def wrap64 (x : Int) : Int := (x + 2 ^ 63) % 2 ^ 64 - 2 ^ 63

/-- The statistics fields of `pinger.Pinger` (`pinger/pinger.go` lines
219-224): min/max/sum of successful durations, total attempts, failed
attempts. -/
structure PingerState where
  minDuration : Int
  maxDuration : Int
  totalDuration : Int
  total : Nat
  failedTotal : Nat
deriving Repr, DecidableEq

/-- The state the counters are in when the ping loop starts: Go zero values
for all fields, except `minDuration`, which `Pinger.Ping` sets to
`math.MaxInt64` just before the loop (`pinger/pinger.go` line 286). -/
def initialState : PingerState :=
  { minDuration := maxInt64
    maxDuration := 0
    totalDuration := 0
    total := 0
    failedTotal := 0 }

/-- The condition under which `Pinger.logStats` increments `failedTotal`
(`pinger/pinger.go` line 477): `stats.Error != nil &&
!errors.Is(stats.Error, context.Canceled)`. -/
def countsAsFailure (s : Stats) : Bool :=
  match s.Error with
  | none => false
  | some e => !errorsIsCanceled e

/-- Model of the statistics updates of `Pinger.logStats`
(`pinger/pinger.go` lines 463-479): duration stats are updated only when
`stats.Connected`, and `failedTotal` is incremented under
`countsAsFailure`.  The formatted output line the Go function also writes
carries no state and is not modelled. -/
def logStats (p : PingerState) (s : Stats) : PingerState :=
  let p1 :=
    if s.Connected then
      { p with
        minDuration := if s.Duration < p.minDuration then s.Duration else p.minDuration
        maxDuration := if s.Duration > p.maxDuration then s.Duration else p.maxDuration
        totalDuration := wrap64 (p.totalDuration + s.Duration) }
    else p
  if countsAsFailure s then { p1 with failedTotal := p1.failedTotal + 1 } else p1

/-- One iteration of the ping loop after an attempt returns
(`pinger/pinger.go` lines 303-310): `p.logStats(stats)` followed by
`p.total++`. -/
def processResult (p : PingerState) (s : Stats) : PingerState :=
  let p1 := logStats p s
  { p1 with total := p1.total + 1 }

/-- The aggregator state after a whole run that produced the given sequence
of per-attempt `Stats`, processed strictly in order. -/
def processAll (p : PingerState) (rs : List Stats) : PingerState :=
  rs.foldl processResult p

/-- The data handed to the summary template by `Pinger.Summarize`
(`pinger/pinger.go` lines 369-394). -/
structure SummaryData where
  Total : Nat
  SuccessTotal : Int
  FailedTotal : Nat
  MinDuration : Int
  MaxDuration : Int
  AvgDuration : Int
deriving Repr, DecidableEq

/-- Model of `Pinger.Summarize` (`pinger/pinger.go` lines 369-394): the
summary data is built from the counters; when `p.total > 0` the average is
computed as `p.totalDuration / time.Duration(p.total)` (Go int64 division,
which truncates toward zero), otherwise min and max are reset to 0. -/
def pingerSummarize (p : PingerState) : SummaryData :=
  let base : SummaryData :=
    { Total := p.total
      SuccessTotal := (p.total : Int) - (p.failedTotal : Int)
      FailedTotal := p.failedTotal
      MinDuration := p.minDuration
      MaxDuration := p.maxDuration
      AvgDuration := 0 }
  if p.total > 0 then
    { base with AvgDuration := Int.tdiv p.totalDuration (p.total : Int) }
  else
    { base with MinDuration := 0, MaxDuration := 0 }

/-- Whether the summary template renders the min/max/average line: the
template guard is `{{if .Total}}` (`pinger/pinger.go` line 362), and
text/template treats an integer as true exactly when it is non-zero. -/
def summaryShowsTripTimes (d : SummaryData) : Bool := d.Total != 0

/-- Model of `pinger.Result` (`pinger/pinger.go` lines 548-555). -/
structure Result where
  Counter : Int
  SuccessCounter : Int
  MinDuration : Int
  MaxDuration : Int
  TotalDuration : Int
deriving Repr, DecidableEq

/-- Model of `Result.Avg` (`pinger/pinger.go` lines 559-564): average over
successful pings, guarding division by zero. -/
def Result.Avg (r : Result) : Int :=
  if r.SuccessCounter = 0 then 0 else Int.tdiv r.TotalDuration r.SuccessCounter

/-- How `Stats.FormatMeta` renders one value (`pinger/pinger.go` lines
188-192): the value looked up in the map, rendered with `String()`, or the
literal text shown for a missing key or nil `fmt.Stringer`. -/
def renderMetaValue : Option (Option String) → String
  | some (some v) => v
  | some none => "<nil>"
  | none => "<nil>"

/-- Lexicographic comparison of character lists; `charListLe a b` is true
when `a` is at most `b` in lexicographic order.  This is the order Go
string comparison uses (byte-wise comparison of the UTF-8 encodings, which
coincides with lexicographic comparison of the code points). -/
def charListLe : List Char → List Char → Bool
  | [], _ => true
  | _ :: _, [] => false
  | a :: as, b :: bs => if a < b then true else if b < a then false else charListLe as bs

/-- Go string comparison `a <= b`. -/
def stringLe (a b : String) : Bool := charListLe a.data b.data

/-- The Go string order as a decidable relation. -/
def strLe (a b : String) : Prop := stringLe a b = true

instance : DecidableRel strLe := fun a b => instDecidableEqBool (stringLe a b) true

/-- Model of `sort.Strings` (called by `FormatMeta` at `pinger/pinger.go`
line 163): sorting in the lexicographic string order. -/
def sortStrings (l : List String) : List String :=
  List.insertionSort strLe l

/-- Model of `Stats.FormatMeta` (`pinger/pinger.go` lines 153-196): empty
map renders as the empty string; otherwise the keys are collected, sorted,
and rendered as space-joined key=value pairs, each value looked up in the
map. -/
def formatMeta (meta : List (String × Option String)) : String :=
  if meta.isEmpty then ""
  else
    let keys := sortStrings (meta.map Prod.fst)
    String.intercalate " " (keys.map (fun k => k ++ "=" ++ renderMetaValue (meta.lookup k)))

/-- Default per-attempt timeout, `pinger.DefaultTimeout = 5 * time.Second`
in nanoseconds. -/
def defaultTimeoutNs : Int := 5000000000

/-- The effective per-attempt deadline each probe computes at the top of its
`Ping` method (`tcp/tcp.go` lines 39-42, udp lines 39-42, `http/http.go`
lines 93-96): the configured option timeout when positive, else the
5-second default. -/
def effectiveTimeout (optionTimeout : Int) : Int :=
  if optionTimeout > 0 then optionTimeout else defaultTimeoutNs

/-- One blocking network call made during a probe attempt, together with
whether that call receives (and is therefore bounded by) the attempt
context carrying the per-attempt deadline. -/
structure NetOp where
  opName : String
  observesCtxDeadline : Bool
deriving Repr, DecidableEq

/-- The network calls of one TCP/TLS attempt (`tcp/tcp.go` lines 65-77),
in order, with whether each receives the attempt context `ctx`:

  * with TLS requested, the attempt calls `tls.DialWithDialer(p.dialer, ...)`
    (line 66); that function takes no context, and the dialer is built in
    `New` (lines 24-26) with only a `Resolver` — no `Timeout` and no
    `Deadline` — so the TCP dial plus TLS handshake it performs is bounded
    by nothing;
  * when that fails, the fallback `p.dialer.DialContext(ctx, ...)`
    (line 73) receives `ctx`;
  * without TLS, the single `p.dialer.DialContext(ctx, ...)` (line 76)
    receives `ctx`. -/
def tcpNetOps (useTls tlsFailed : Bool) : List NetOp :=
  if useTls then
    { opName := "tls.DialWithDialer", observesCtxDeadline := false } ::
      (if tlsFailed then [{ opName := "dialer.DialContext", observesCtxDeadline := true }] else [])
  else
    [{ opName := "dialer.DialContext", observesCtxDeadline := true }]

deriving instance DecidableEq for Except

/-- One field of a TLS peer certificate as used by `tcp/tcp.go` lines
90-94. -/
structure TlsCert where
  dnsNames : List String
  notBefore : Int
  notAfter : Int
deriving Repr, DecidableEq

/-- The part of `tls.ConnectionState` read by the TCP probe. -/
structure TlsConnState where
  serverName : String
  version : Nat
  peerCertificates : List TlsCert
deriving Repr, DecidableEq

/-- A TLS connection as observed by the TCP probe: its remote address and
its connection state. -/
structure TlsConn where
  remoteAddr : String
  connState : TlsConnState
deriving Repr, DecidableEq

/-- Value of the constant `tls.VersionTLS10` (0x0301). -/
def tlsVersionTLS10 : Nat := 769

/-- The version number stored in the certificate summary
(`tcp/tcp.go` line 92): `int(state.Version - tls.VersionTLS10)`, a uint16
subtraction, which wraps modulo 2^16. -/
def versionOffset (v : Nat) : Nat := (v + 65536 - tlsVersionTLS10) % 65536

/-- Oracle for one TCP/TLS attempt: the outcome of the TLS dial
(`tls.DialWithDialer`), the outcome of a plain TCP dial
(`dialer.DialContext`), the address carried by a `*net.OpError` dial error
when there is one, and the elapsed times the clock reads would produce. -/
structure TcpEnv where
  tlsOutcome : Except GoError TlsConn
  plainOutcome : Except GoError String
  dialErrOpAddr : Option String
  dnsDur : Int
  dialElapsed : Int
deriving Repr, DecidableEq

/-- Rendering of the fallback note (`tcp/tcp.go` line 97):
`fmt.Sprintf("TLS handshake failed, %s", tlsErr)`.  A nil error renders as
Go fmt renders a nil `%s` operand. -/
def tlsFailNote : Option GoError → String
  | some e => "TLS handshake failed, " ++ e.message
  | none => "TLS handshake failed, %!s(<nil>)"

/-- Model of the TCP/TLS `Ping.Ping` (`tcp/tcp.go` lines 38-101).  With TLS
requested it first tries the TLS dial; on TLS failure it records the TLS
error and falls back to a plain TCP dial (lines 65-74); without TLS it only
does the plain dial (line 76).  The dial outcome then populates the
`Stats` exactly as lines 78-99 do: on error, `Error` is set and `Address`
comes from a `*net.OpError` if the error carries one; on success,
`Connected` is set, `Address` is the remote address, and `Extra` is the
certificate summary when a TLS connection with at least one peer
certificate exists, else — still under TLS — the handshake-failure
note. -/
def tcpPing (useTls : Bool) (env : TcpEnv) : Stats :=
  let dialRes : Except GoError String × Option TlsConn × Option GoError :=
    if useTls then
      match env.tlsOutcome with
      | .ok c => (.ok c.remoteAddr, some c, none)
      | .error e =>
        match env.plainOutcome with
        | .ok a => (.ok a, none, some e)
        | .error e2 => (.error e2, none, some e)
    else
      (env.plainOutcome, none, none)
  match dialRes with
  | (.error err, _, _) =>
    { Connected := false
      Error := some err
      Duration := env.dialElapsed
      DNSDuration := env.dnsDur
      Address := env.dialErrOpAddr.getD ""
      Meta := []
      Extra := none }
  | (.ok addr, tlsConn?, tlsErr?) =>
    let extra : Option ExtraInfo :=
      match tlsConn? with
      | some c =>
        match c.connState.peerCertificates with
        | cert :: _ =>
          some (.certMeta cert.dnsNames c.connState.serverName
            (versionOffset c.connState.version) cert.notBefore cert.notAfter)
        | [] => if useTls then some (.text (tlsFailNote tlsErr?)) else none
      | none => if useTls then some (.text (tlsFailNote tlsErr?)) else none
    { Connected := true
      Error := none
      Duration := env.dialElapsed
      DNSDuration := env.dnsDur
      Address := addr
      Meta := []
      Extra := extra }

/-- Model of `net.JoinHostPort`: bracket the host when it contains a
colon. -/
def joinHostPort (host : String) (port : Int) : String :=
  if host.contains ':' then "[" ++ host ++ "]:" ++ toString port
  else host ++ ":" ++ toString port

/-- Oracle for one UDP attempt: whether `net.ParseIP` recognises the host
as a literal IP (and its string form), and the outcomes of the DNS lookup,
the dial, the write, and the read — `readErr = none` meaning a datagram
was received before the deadline (its content is never inspected:
the Go code reads into a scratch buffer and discards it). -/
structure UdpEnv where
  hostLiteralIP : Option String
  lookupOutcome : Except GoError (List String)
  dialOutcome : Except GoError Unit
  writeErr : Option GoError
  readErr : Option GoError
  dnsElapsed : Int
  totalElapsed : Int
deriving Repr, DecidableEq

/-- Model of the UDP `Ping.Ping` (udp package, lines 36-168): literal-IP
short-circuit, else DNS lookup with its failure and empty-answer cases;
then dial, write, and the deadline-bounded read; `Connected` is decided by
the read outcome alone and every failure wraps its cause with the
phase-naming message the Go code uses. -/
def udpPing (host : String) (port : Int) (env : UdpEnv) : Stats :=
  let dnsDur : Int := if env.hostLiteralIP.isSome then 0 else env.dnsElapsed
  let resolvedIP : Except GoError String :=
    match env.hostLiteralIP with
    | some ip => .ok ip
    | none =>
      match env.lookupOutcome with
      | .error e => .error (.wrapped "dns lookup failed: " e)
      | .ok [] => .error (.errorString ("dns lookup returned no IP addresses for " ++ host))
      | .ok (ip :: _) => .ok ip
  match resolvedIP with
  | .error e =>
    { Connected := false, Error := some e, Duration := env.totalElapsed
      DNSDuration := dnsDur, Address := "", Meta := [], Extra := none }
  | .ok ip =>
    let targetAddr := joinHostPort ip port
    match env.dialOutcome with
    | .error e =>
      { Connected := false, Error := some (.wrapped "dial failed: " e)
        Duration := env.totalElapsed, DNSDuration := dnsDur
        Address := targetAddr, Meta := [], Extra := none }
    | .ok _ =>
      match env.writeErr with
      | some e =>
        { Connected := false, Error := some (.wrapped "write failed: " e)
          Duration := env.totalElapsed, DNSDuration := dnsDur
          Address := targetAddr, Meta := [], Extra := none }
      | none =>
        let meta : List (String × Option String) := [("sent", some "4")]
        match env.readErr with
        | none =>
          { Connected := true, Error := none, Duration := env.totalElapsed
            DNSDuration := dnsDur, Address := targetAddr, Meta := meta, Extra := none }
        | some e =>
          { Connected := false, Error := some (.wrapped "read failed: " e)
            Duration := env.totalElapsed, DNSDuration := dnsDur
            Address := targetAddr, Meta := meta, Extra := none }

/-- Whether the attempt reaches the receive phase (the `conn.Read` call):
resolution produced an address, the dial succeeded and the write
succeeded. -/
def udpReachesReceive (env : UdpEnv) : Bool :=
  (env.hostLiteralIP.isSome ||
    (match env.lookupOutcome with
     | .ok (_ :: _) => true
     | .ok [] => false
     | .error _ => false)) &&
  (match env.dialOutcome with
   | .ok _ => true
   | .error _ => false) &&
  env.writeErr.isNone

/-- The per-attempt trace record of the HTTP probe (`Trace` in the http
package): phase durations and the remote address, populated only by the
`httptrace` callbacks that `Trace.WithTrace` installs. -/
structure TraceRec where
  DNSDuration : Int := 0
  ConnectDuration : Int := 0
  TLSDuration : Int := 0
  WroteRequestDuration : Int := 0
  WaitResponseDuration : Int := 0
  BodyDuration : Int := 0
  tlsUsed : Bool := false
  address : String := ""
deriving Repr, DecidableEq

/-- A freshly allocated `Trace{}`: all fields at their Go zero values. -/
def zeroTrace : TraceRec := {}

/-- The part of an HTTP response the probe reads. -/
structure HttpResp where
  statusCode : Int
deriving Repr, DecidableEq

/-- Oracle for one HTTP/HTTPS attempt: the outcome of building the request,
of `client.Do`, and of draining the body (`io.Copy`), plus the clock
reads. -/
structure HttpEnv where
  reqErr : Option GoError
  doOutcome : Except GoError HttpResp
  bodyBytes : Int
  bodyReadErr : Option GoError
  reqElapsed : Int
  doElapsed : Int
  totalElapsed : Int
deriving Repr, DecidableEq

/-- Model of the HTTP `Ping.Ping` (`http/http.go` lines 91-170).  A fresh
`Trace{}` is allocated; only when tracing is enabled is it installed on the
context (so its fields can be populated by the callbacks, here supplied by
`observed`) and attached as `Extra`.  After `client.Do`, `DNSDuration` and
`Address` are copied from the trace (lines 134-135).  On response, the
status code is recorded into `Meta`, the body is drained, a positive byte
count is recorded, and a body-read error downgrades `Connected` to false
with a wrapped error (lines 144-167). -/
def httpPing (traceEnabled : Bool) (observed : TraceRec) (env : HttpEnv) : Stats :=
  let trace := if traceEnabled then observed else zeroTrace
  let extra0 : Option ExtraInfo := if traceEnabled then some .traceRef else none
  match env.reqErr with
  | some e =>
    { Connected := false, Error := some e, Duration := env.reqElapsed
      DNSDuration := 0, Address := "", Meta := [], Extra := extra0 }
  | none =>
    match env.doOutcome with
    | .error e =>
      { Connected := false, Error := some e, Duration := env.doElapsed
        DNSDuration := trace.DNSDuration, Address := trace.address
        Meta := [], Extra := extra0 }
    | .ok resp =>
      let meta1 : List (String × Option String) := [("status", some (toString resp.statusCode))]
      let meta2 := if env.bodyBytes > 0 then meta1 ++ [("bytes", some (toString env.bodyBytes))] else meta1
      match env.bodyReadErr with
      | none =>
        { Connected := true, Error := none, Duration := env.totalElapsed
          DNSDuration := trace.DNSDuration, Address := trace.address
          Meta := meta2, Extra := extra0 }
      | some e =>
        { Connected := false, Error := some (.wrapped "read body failed: " e)
          Duration := env.totalElapsed
          DNSDuration := trace.DNSDuration, Address := trace.address
          Meta := meta2, Extra := extra0 }

/-! Properties of the string order used by the `sort.Strings` model. -/

theorem charListLe_total : ∀ a b : List Char, charListLe a b = true ∨ charListLe b a = true := by
  intro a
  induction a with
  | nil => intro b; left; rfl
  | cons x xs ih =>
    intro b
    cases b with
    | nil => right; rfl
    | cons y ys =>
      by_cases hxy : x < y
      · left; simp [charListLe, hxy]
      · by_cases hyx : y < x
        · right; simp [charListLe, hyx]
        · cases ih ys with
          | inl h => left; simp [charListLe, hxy, hyx, h]
          | inr h => right; simp [charListLe, hxy, hyx, h]

theorem charListLe_trans : ∀ a b c : List Char,
    charListLe a b = true → charListLe b c = true → charListLe a c = true := by
  intro a
  induction a with
  | nil => intro b c _ _; rfl
  | cons x xs ih =>
    intro b c hab hbc
    cases b with
    | nil => simp [charListLe] at hab
    | cons y ys =>
      cases c with
      | nil => simp [charListLe] at hbc
      | cons z zs =>
        by_cases hxy : x < y
        · by_cases hyz : y < z
          · simp [charListLe, lt_trans hxy hyz]
          · by_cases hzy : z < y
            · simp [charListLe, hyz, hzy] at hbc
            · have hyz' : y = z := le_antisymm (not_lt.mp hzy) (not_lt.mp hyz)
              subst hyz'
              simp [charListLe, hxy]
        · by_cases hyx : y < x
          · simp [charListLe, hxy, hyx] at hab
          · have hxy' : x = y := le_antisymm (not_lt.mp hyx) (not_lt.mp hxy)
            subst hxy'
            simp only [charListLe, if_neg (lt_irrefl x)] at hab
            by_cases hxz : x < z
            · simp [charListLe, hxz]
            · by_cases hzx : z < x
              · simp [charListLe, hxz, hzx] at hbc
              · simp only [charListLe, if_neg hxz, if_neg hzx] at hbc ⊢
                exact ih ys zs hab hbc

theorem charListLe_antisymm : ∀ a b : List Char,
    charListLe a b = true → charListLe b a = true → a = b := by
  intro a
  induction a with
  | nil =>
    intro b _ hba
    cases b with
    | nil => rfl
    | cons y ys => simp [charListLe] at hba
  | cons x xs ih =>
    intro b hab hba
    cases b with
    | nil => simp [charListLe] at hab
    | cons y ys =>
      by_cases hxy : x < y
      · simp [charListLe, hxy, asymm hxy] at hba
      · by_cases hyx : y < x
        · simp [charListLe, hxy, hyx] at hab
        · have hxy' : x = y := le_antisymm (not_lt.mp hyx) (not_lt.mp hxy)
          subst hxy'
          simp only [charListLe, if_neg (lt_irrefl x)] at hab hba
          exact congrArg (x :: ·) (ih ys hab hba)

instance : IsTotal String strLe :=
  ⟨fun a b => charListLe_total a.data b.data⟩

instance : IsTrans String strLe :=
  ⟨fun a b c => charListLe_trans a.data b.data c.data⟩

instance : IsAntisymm String strLe :=
  ⟨fun a b h1 h2 => by
    obtain ⟨la⟩ := a
    obtain ⟨lb⟩ := b
    exact congrArg String.mk (charListLe_antisymm la lb h1 h2)⟩

theorem sortStrings_perm (l : List String) : (sortStrings l).Perm l :=
  List.perm_insertionSort strLe l

theorem sortStrings_eq_of_perm {l1 l2 : List String} (h : l1.Perm l2) :
    sortStrings l1 = sortStrings l2 :=
  List.eq_of_perm_of_sorted
    ((sortStrings_perm l1).trans (h.trans (sortStrings_perm l2).symm))
    (List.sorted_insertionSort strLe l1) (List.sorted_insertionSort strLe l2)

theorem lookup_eq_of_perm {β : Type} {l1 l2 : List (String × β)} (hp : l1.Perm l2) :
    ∀ (_ : (l1.map Prod.fst).Nodup) (k : String), l1.lookup k = l2.lookup k := by
  induction hp with
  | nil => intro _ _; rfl
  | cons a hp ih =>
    intro hnd k
    obtain ⟨a1, b1⟩ := a
    have hnd' := (List.nodup_cons.mp hnd).2
    cases hk : k == a1 <;> simp [List.lookup, hk, ih hnd' k]
  | swap x y l =>
    intro hnd k
    obtain ⟨x1, b1⟩ := x
    obtain ⟨y1, b2⟩ := y
    simp only [List.map_cons, List.nodup_cons, List.mem_cons, not_or] at hnd
    have hne : y1 ≠ x1 := hnd.1.1
    cases hkx : k == x1 <;> cases hky : k == y1
    · simp [List.lookup, hkx, hky]
    · simp [List.lookup, hkx, hky]
    · simp [List.lookup, hkx, hky]
    · exact absurd ((eq_of_beq hky).symm.trans (eq_of_beq hkx)) hne
  | trans h1 _ ih1 ih2 =>
    intro hnd k
    have hnd2 : _ := ((h1.map Prod.fst).nodup_iff).mp hnd
    exact (ih1 hnd k).trans (ih2 hnd2 k)

theorem formatMeta_eq_of_perm {l1 l2 : List (String × Option String)} (hp : l1.Perm l2)
    (hnd : (l1.map Prod.fst).Nodup) : formatMeta l1 = formatMeta l2 := by
  have hlen := hp.length_eq
  by_cases he : l1.isEmpty
  · have he2 : l2.isEmpty := by
      cases l1 <;> cases l2 <;> simp_all
    simp [formatMeta, he, he2]
  · have he2 : ¬l2.isEmpty := by
      cases l1 <;> cases l2 <;> simp_all
    simp only [formatMeta, if_neg he, if_neg he2]
    rw [sortStrings_eq_of_perm (hp.map Prod.fst)]
    congr 1
    apply List.map_congr_left
    intro k _
    rw [lookup_eq_of_perm hp hnd k]

/-! Helper lemmas about the aggregator state transitions. -/

theorem processResult_total (p : PingerState) (s : Stats) :
    (processResult p s).total = p.total + 1 := by
  unfold processResult logStats
  cases hc : s.Connected <;> cases hf : countsAsFailure s <;> simp [hc, hf]

theorem processResult_failedTotal (p : PingerState) (s : Stats) :
    (processResult p s).failedTotal
      = if countsAsFailure s then p.failedTotal + 1 else p.failedTotal := by
  unfold processResult logStats
  cases hc : s.Connected <;> cases hf : countsAsFailure s <;> simp [hc, hf]

theorem logStats_failedTotal (p : PingerState) (s : Stats) :
    (logStats p s).failedTotal
      = if countsAsFailure s then p.failedTotal + 1 else p.failedTotal := by
  unfold logStats
  cases hc : s.Connected <;> cases hf : countsAsFailure s <;> simp [hc, hf]

theorem processResult_minDuration (p : PingerState) (s : Stats) :
    (processResult p s).minDuration
      = if s.Connected then
          (if s.Duration < p.minDuration then s.Duration else p.minDuration)
        else p.minDuration := by
  unfold processResult logStats
  cases hc : s.Connected <;> cases hf : countsAsFailure s <;> simp [hc, hf]

theorem processResult_maxDuration (p : PingerState) (s : Stats) :
    (processResult p s).maxDuration
      = if s.Connected then
          (if s.Duration > p.maxDuration then s.Duration else p.maxDuration)
        else p.maxDuration := by
  unfold processResult logStats
  cases hc : s.Connected <;> cases hf : countsAsFailure s <;> simp [hc, hf]

theorem processResult_totalDuration (p : PingerState) (s : Stats) :
    (processResult p s).totalDuration
      = if s.Connected then wrap64 (p.totalDuration + s.Duration) else p.totalDuration := by
  unfold processResult logStats
  cases hc : s.Connected <;> cases hf : countsAsFailure s <;> simp [hc, hf]

theorem processAll_cons (p : PingerState) (s : Stats) (rs : List Stats) :
    processAll p (s :: rs) = processAll (processResult p s) rs := rfl

/-- The duration-statistics projection of the aggregator state. -/
def durStats (p : PingerState) : Int × Int × Int :=
  (p.minDuration, p.maxDuration, p.totalDuration)

/-- How one `Result` transforms the duration statistics alone. -/
def durStatsStep (d : Int × Int × Int) (s : Stats) : Int × Int × Int :=
  if s.Connected then
    (if s.Duration < d.1 then s.Duration else d.1,
     if s.Duration > d.2.1 then s.Duration else d.2.1,
     wrap64 (d.2.2 + s.Duration))
  else d

theorem durStats_processResult (p : PingerState) (s : Stats) :
    durStats (processResult p s) = durStatsStep (durStats p) s := by
  unfold durStats durStatsStep
  rw [processResult_minDuration, processResult_maxDuration, processResult_totalDuration]
  cases hc : s.Connected <;> simp [hc]

theorem durStats_processAll (rs : List Stats) :
    ∀ p : PingerState, durStats (processAll p rs) = rs.foldl durStatsStep (durStats p) := by
  induction rs with
  | nil => intro p; rfl
  | cons s rs ih =>
    intro p
    rw [processAll_cons, ih, List.foldl_cons, durStats_processResult]

theorem foldl_durStatsStep_filter (rs : List Stats) :
    ∀ d : Int × Int × Int,
      rs.foldl durStatsStep d = (rs.filter (fun s => s.Connected)).foldl durStatsStep d := by
  induction rs with
  | nil => intro d; rfl
  | cons s rs ih =>
    intro d
    cases hc : s.Connected
    · have hid : durStatsStep d s = d := by unfold durStatsStep; simp [hc]
      simp [List.foldl_cons, List.filter_cons, hc, hid, ih]
    · simp [List.foldl_cons, List.filter_cons, hc, ih]

theorem processResult_min_le (p : PingerState) (s : Stats) :
    (processResult p s).minDuration ≤ p.minDuration := by
  rw [processResult_minDuration]
  split_ifs <;> omega

theorem processResult_max_ge (p : PingerState) (s : Stats) :
    p.maxDuration ≤ (processResult p s).maxDuration := by
  rw [processResult_maxDuration]
  split_ifs <;> omega

theorem processAll_min_le (rs : List Stats) :
    ∀ p : PingerState, (processAll p rs).minDuration ≤ p.minDuration := by
  induction rs with
  | nil => intro p; exact le_refl _
  | cons s rs ih =>
    intro p
    exact le_trans (ih (processResult p s)) (processResult_min_le p s)

theorem processAll_max_ge (rs : List Stats) :
    ∀ p : PingerState, p.maxDuration ≤ (processAll p rs).maxDuration := by
  induction rs with
  | nil => intro p; exact le_refl _
  | cons s rs ih =>
    intro p
    exact le_trans (processResult_max_ge p s) (ih (processResult p s))

theorem processResult_conn_bounds (p : PingerState) (s : Stats) (h : s.Connected = true) :
    (processResult p s).minDuration ≤ s.Duration
      ∧ s.Duration ≤ (processResult p s).maxDuration := by
  rw [processResult_minDuration, processResult_maxDuration]
  simp only [h, if_true]
  constructor <;> split_ifs <;> omega

theorem processAll_mem_bounds (rs : List Stats) :
    ∀ (p : PingerState) (s : Stats), s ∈ rs → s.Connected = true →
      (processAll p rs).minDuration ≤ s.Duration
        ∧ s.Duration ≤ (processAll p rs).maxDuration := by
  induction rs with
  | nil => intro p s hmem _; cases hmem
  | cons t ts ih =>
    intro p s hmem hconn
    rcases List.mem_cons.mp hmem with rfl | hmem'
    · have hb := processResult_conn_bounds p s hconn
      rw [processAll_cons]
      exact ⟨le_trans (processAll_min_le ts (processResult p s)) hb.1,
             le_trans hb.2 (processAll_max_ge ts (processResult p s))⟩
    · rw [processAll_cons]
      exact ih (processResult p t) s hmem' hconn

theorem processAll_failed_le_total (rs : List Stats) :
    ∀ p : PingerState, p.failedTotal ≤ p.total →
      (processAll p rs).failedTotal ≤ (processAll p rs).total := by
  induction rs with
  | nil => intro p h; exact h
  | cons s rs ih =>
    intro p h
    rw [processAll_cons]
    apply ih
    rw [processResult_failedTotal, processResult_total]
    split_ifs <;> omega

theorem processAll_total (rs : List Stats) :
    ∀ p : PingerState, (processAll p rs).total = p.total + rs.length := by
  induction rs with
  | nil => intro p; rfl
  | cons s rs ih =>
    intro p
    rw [processAll_cons, ih, processResult_total, List.length_cons]
    omega

theorem processAll_noconn_durStats (rs : List Stats) (h : ∀ s ∈ rs, s.Connected = false)
    (p : PingerState) : durStats (processAll p rs) = durStats p := by
  rw [durStats_processAll, foldl_durStatsStep_filter]
  have hnil : rs.filter (fun s => s.Connected) = [] := by
    rw [List.filter_eq_nil_iff]
    intro s hs
    simp [h s hs]
  rw [hnil]
  rfl

/-! Concrete sample data used by counterexamples and witnesses. -/

/-- A successful attempt taking 100ns. -/
def demoSuccess : Stats := { Connected := true, Error := none, Duration := 100 }

/-- A failed attempt: not connected, carrying a non-cancellation error. -/
def demoFailure : Stats :=
  { Connected := false, Error := some (.errorString "connect: connection refused"), Duration := 7 }

/-- A two-attempt run: one success (100ns), one failure. -/
def demoRun : List Stats := [demoSuccess, demoFailure]

def demoTlsErr : GoError := .errorString "remote error: tls: handshake failure"

def demoDialErr : GoError := .errorString "connect: connection refused"

/-- TCP oracle in which both the TLS dial and the plain fallback dial fail. -/
def tcpEnvBothFail : TcpEnv :=
  { tlsOutcome := Except.error demoTlsErr
    plainOutcome := Except.error demoDialErr
    dialErrOpAddr := none
    dnsDur := 0
    dialElapsed := 5000 }

def demoCert : TlsCert := { dnsNames := ["example.com"], notBefore := 100, notAfter := 200 }

def demoConnState : TlsConnState :=
  { serverName := "example.com", version := 772, peerCertificates := [demoCert] }

def demoTlsConn : TlsConn := { remoteAddr := "93.184.216.34:443", connState := demoConnState }

/-- TCP oracle in which the TLS dial succeeds. -/
def tcpEnvTlsOk : TcpEnv :=
  { tlsOutcome := Except.ok demoTlsConn
    plainOutcome := Except.error (.errorString "unused")
    dialErrOpAddr := none
    dnsDur := 3
    dialElapsed := 9 }

/-- TCP oracle in which the TLS dial fails and the plain fallback succeeds. -/
def tcpEnvTlsFallback : TcpEnv :=
  { tlsOutcome := Except.error demoTlsErr
    plainOutcome := Except.ok "93.184.216.34:443"
    dialErrOpAddr := none
    dnsDur := 0
    dialElapsed := 7 }

def demoBodyErr : GoError := .errorString "unexpected EOF"

/-- HTTP oracle: headers received with status 200, then the body read fails. -/
def httpEnvBadBody : HttpEnv :=
  { reqErr := none
    doOutcome := Except.ok { statusCode := 200 }
    bodyBytes := 512
    bodyReadErr := some demoBodyErr
    reqElapsed := 1
    doElapsed := 2
    totalElapsed := 3 }

/-- UDP oracle: literal-IP host, dial and write succeed, a datagram arrives. -/
def udpEnvRecv : UdpEnv :=
  { hostLiteralIP := some "8.8.8.8"
    lookupOutcome := Except.ok []
    dialOutcome := Except.ok ()
    writeErr := none
    readErr := none
    dnsElapsed := 0
    totalElapsed := 42 }

/-- UDP oracle: reaches the receive phase and the read times out. -/
def udpEnvTimeout : UdpEnv :=
  { hostLiteralIP := some "8.8.8.8"
    lookupOutcome := Except.ok []
    dialOutcome := Except.ok ()
    writeErr := none
    readErr := some .deadlineExceeded
    dnsElapsed := 0
    totalElapsed := 42 }

/-! Claim theorems. -/

/-- C1 (code evaluated at the failing input): on the two-attempt run with one
success of 100ns and one failure, `Summarize` reports an average of 50ns —
`totalDuration` (100, the sum over successful attempts only) divided by the
total attempt count 2 — whereas the quantity the claim states, the sum of
successful durations divided by the success count, is 100ns.  So `Summarize`
divides by the total attempt count, not by the success count, contradicting
the claim (and contradicting `Result.Avg` in the same file, which divides by
`SuccessCounter`). -/
theorem c1_summarize_average_divides_by_total :
    (pingerSummarize (processAll initialState demoRun)).AvgDuration = 50
      ∧ Int.tdiv (processAll initialState demoRun).totalDuration
          (((processAll initialState demoRun).total : Int)
            - ((processAll initialState demoRun).failedTotal : Int)) = 100
      ∧ (pingerSummarize (processAll initialState demoRun)).AvgDuration
          ≠ Int.tdiv (processAll initialState demoRun).totalDuration
            (((processAll initialState demoRun).total : Int)
              - ((processAll initialState demoRun).failedTotal : Int)) := by
  decide

/-- C2 (code evaluated at the failing input): with TLS requested, the
attempt performs a network operation — the combined dial plus TLS handshake
of `tls.DialWithDialer` — that does not observe the attempt context, so it
is not bounded by the effective per-attempt deadline; the non-TLS attempt's
single dial does observe it, and the effective deadline is the configured
timeout when positive, else the 5-second default. -/
theorem c2_tls_dial_not_bounded_by_ctx :
    ((tcpNetOps true false).any fun op => !op.observesCtxDeadline) = true
      ∧ ((tcpNetOps true true).any fun op => !op.observesCtxDeadline) = true
      ∧ ((tcpNetOps false false).all fun op => op.observesCtxDeadline) = true
      ∧ effectiveTimeout 0 = defaultTimeoutNs
      ∧ effectiveTimeout 3000000000 = 3000000000 := by
  decide

/-- C3: processing one `Result` increments the failure counter exactly when
`Result.Error` is non-nil and is not (and does not wrap) the cancellation
error `context.Canceled`; in particular an attempt aborted by the
scheduler shutdown, whose error is the cancellation error, never increments
the failure count. -/
theorem c3_failure_count_iff_noncanceled_error (p : PingerState) (s : Stats) :
    (logStats p s).failedTotal
        = (if countsAsFailure s then p.failedTotal + 1 else p.failedTotal)
      ∧ (countsAsFailure s = true ↔ ∃ e, s.Error = some e ∧ errorsIsCanceled e = false) := by
  refine ⟨logStats_failedTotal p s, ?_⟩
  unfold countsAsFailure
  cases he : s.Error with
  | none => simp
  | some e => cases herr : errorsIsCanceled e <;> simp [herr]

/-- C4 (counterexample to the claim as stated): when the TLS handshake fails
and the plain-TCP fallback dial also fails, the attempt returns with
`Extra` unset — no handshake-failure note — while `Connected` is false and
`Error` is the fallback dial error. -/
theorem c4_counterexample_no_note_when_fallback_fails :
    (tcpPing true tcpEnvBothFail).Connected = false
      ∧ (tcpPing true tcpEnvBothFail).Error = some demoDialErr
      ∧ (tcpPing true tcpEnvBothFail).Extra = none := by
  decide

/-- C4 (amended): with TLS requested, a successful handshake yields
`Connected = true` and `Extra` carrying the certificate summary (subject
DNS names, version offset from TLS 1.0, validity window); a failed
handshake triggers the plain-TCP fallback, `Connected` reflects the
fallback outcome, and `Extra` carries the one-line handshake-failure note
referencing the TLS error when the fallback dial succeeds — when the
fallback dial also fails, `Extra` stays unset and `Error` is the dial
error. -/
theorem c4_tls_extra_behaviour (env : TcpEnv) :
    (∀ (c : TlsConn) (cert : TlsCert) (certs : List TlsCert),
        env.tlsOutcome = Except.ok c →
        c.connState.peerCertificates = cert :: certs →
        (tcpPing true env).Connected = true
          ∧ (tcpPing true env).Extra
              = some (.certMeta cert.dnsNames c.connState.serverName
                  (versionOffset c.connState.version) cert.notBefore cert.notAfter))
      ∧ (∀ e : GoError, env.tlsOutcome = Except.error e →
          (∀ a : String, env.plainOutcome = Except.ok a →
              (tcpPing true env).Connected = true
                ∧ (tcpPing true env).Extra
                    = some (.text ("TLS handshake failed, " ++ e.message)))
            ∧ (∀ e2 : GoError, env.plainOutcome = Except.error e2 →
                (tcpPing true env).Connected = false
                  ∧ (tcpPing true env).Error = some e2
                  ∧ (tcpPing true env).Extra = none)) := by
  obtain ⟨tlsO, plainO, opAddr, dnsD, dialE⟩ := env
  constructor
  · intro c cert certs hok hcert
    subst hok
    simp [tcpPing, tlsFailNote, hcert]
  · intro e herr
    subst herr
    constructor
    · intro a hok
      subst hok
      simp [tcpPing, tlsFailNote]
    · intro e2 herr2
      subst herr2
      simp [tcpPing]

/-- C4 witness: at the concrete successful-handshake oracle the certificate
summary is attached, and at the concrete fallback-success oracle the
handshake-failure note is attached. -/
theorem c4_tls_extra_witness :
    ((tcpPing true tcpEnvTlsOk).Connected = true
      ∧ (tcpPing true tcpEnvTlsOk).Extra
          = some (.certMeta ["example.com"] "example.com" (versionOffset 772) 100 200))
      ∧ ((tcpPing true tcpEnvTlsFallback).Connected = true
        ∧ (tcpPing true tcpEnvTlsFallback).Extra
            = some (.text ("TLS handshake failed, " ++ demoTlsErr.message))) := by
  constructor
  · exact (c4_tls_extra_behaviour tcpEnvTlsOk).1 demoTlsConn demoCert [] rfl rfl
  · exact ((c4_tls_extra_behaviour tcpEnvTlsFallback).2 demoTlsErr rfl).1 "93.184.216.34:443" rfl

/-- C5: whenever the HTTP request yields a response (headers received), the
status code is recorded in `Meta` under the key `status`, and a body-read
failure downgrades the attempt: `Connected` is false and `Error` is the
non-nil wrapped body-read error. -/
theorem c5_http_status_recorded_and_body_error_downgrades
    (traceEnabled : Bool) (observed : TraceRec) (env : HttpEnv) (resp : HttpResp)
    (hreq : env.reqErr = none) (hdo : env.doOutcome = Except.ok resp) :
    (httpPing traceEnabled observed env).Meta.lookup "status"
        = some (some (toString resp.statusCode))
      ∧ ∀ e : GoError, env.bodyReadErr = some e →
          (httpPing traceEnabled observed env).Connected = false
            ∧ (httpPing traceEnabled observed env).Error
                = some (.wrapped "read body failed: " e) := by
  constructor
  · by_cases hbb : env.bodyBytes > 0 <;>
      cases hbe : env.bodyReadErr <;>
      simp [httpPing, hreq, hdo, hbe, hbb, List.lookup]
  · intro e he
    constructor <;> simp [httpPing, hreq, hdo, he]

/-- C5 witness: the concrete bad-body oracle records status 200 and comes
back failed with the wrapped body-read error. -/
theorem c5_http_witness :
    (httpPing false zeroTrace httpEnvBadBody).Meta.lookup "status"
        = some (some (toString (200 : Int)))
      ∧ (httpPing false zeroTrace httpEnvBadBody).Connected = false
      ∧ (httpPing false zeroTrace httpEnvBadBody).Error
          = some (.wrapped "read body failed: " demoBodyErr) := by
  have h := c5_http_status_recorded_and_body_error_downgrades false zeroTrace httpEnvBadBody
    { statusCode := 200 } rfl rfl
  exact ⟨h.1, (h.2 demoBodyErr rfl).1, (h.2 demoBodyErr rfl).2⟩

/-- C6: for any run, the final aggregator state satisfies the running-stats
invariant: the minimum is at most every successful duration, which is at
most the maximum; failed attempts never exceed total attempts; and the
duration statistics (min, max, sum) are exactly those computed from the
connected results alone. -/
theorem c6_running_stats_invariant (rs : List Stats) :
    (∀ s ∈ rs, s.Connected = true →
        (processAll initialState rs).minDuration ≤ s.Duration
          ∧ s.Duration ≤ (processAll initialState rs).maxDuration)
      ∧ (processAll initialState rs).failedTotal ≤ (processAll initialState rs).total
      ∧ durStats (processAll initialState rs)
          = durStats (processAll initialState (rs.filter (fun s => s.Connected))) := by
  refine ⟨fun s hmem hconn => processAll_mem_bounds rs initialState s hmem hconn,
    processAll_failed_le_total rs initialState (by decide), ?_⟩
  rw [durStats_processAll, durStats_processAll, foldl_durStatsStep_filter]

/-- C6 witness: on the concrete demo run the bounds hold for its successful
attempt and the counter inequality holds. -/
theorem c6_running_stats_witness :
    ((processAll initialState demoRun).minDuration ≤ demoSuccess.Duration
      ∧ demoSuccess.Duration ≤ (processAll initialState demoRun).maxDuration)
      ∧ (processAll initialState demoRun).failedTotal
          ≤ (processAll initialState demoRun).total := by
  have h := c6_running_stats_invariant demoRun
  exact ⟨h.1 demoSuccess (by decide) (by decide), h.2.1⟩

/-- C7: whenever a UDP attempt reaches the receive phase, `Connected` is
true exactly when the read returns without error (a datagram arrived before
the deadline, content ignored), and on a read failure `Connected` is false
and `Error` is the non-nil wrapped read-failure error. -/
theorem c7_udp_connected_iff_read_ok (host : String) (port : Int) (env : UdpEnv)
    (h : udpReachesReceive env = true) :
    ((udpPing host port env).Connected = true ↔ env.readErr = none)
      ∧ ∀ e : GoError, env.readErr = some e →
          (udpPing host port env).Connected = false
            ∧ (udpPing host port env).Error = some (.wrapped "read failed: " e) := by
  obtain ⟨hlit, lookupO, dialO, writeE, readE, dnsE, totE⟩ := env
  simp only [udpReachesReceive, Bool.and_eq_true, Bool.or_eq_true] at h
  obtain ⟨⟨hres, hdial⟩, hwrite⟩ := h
  cases dialO with
  | error e => simp at hdial
  | ok u =>
    cases writeE with
    | some e => simp at hwrite
    | none =>
      cases hlit with
      | some ip =>
        cases readE <;> simp [udpPing]
      | none =>
        cases lookupO with
        | error e => simp at hres
        | ok ips =>
          cases ips with
          | nil => simp at hres
          | cons ip rest =>
            cases readE <;> simp [udpPing]

/-- C7 witness: at the concrete timed-out oracle the attempt is not
connected and carries the wrapped read error. -/
theorem c7_udp_witness :
    (udpPing "8.8.8.8" 53 udpEnvTimeout).Connected = false
      ∧ (udpPing "8.8.8.8" 53 udpEnvTimeout).Error
          = some (.wrapped "read failed: " .deadlineExceeded) := by
  have h := c7_udp_connected_iff_read_ok "8.8.8.8" 53 udpEnvTimeout (by decide)
  exact h.2 GoError.deadlineExceeded rfl

/-- C8: metadata rendering is deterministic and alphabetically ordered: any
two association lists holding the same entries (any map iteration order)
render to the same string, and the concrete map with entries b=2 and a=1
renders exactly as the space-joined, key-sorted string. -/
theorem c8_format_meta_deterministic (m1 m2 : List (String × Option String))
    (hp : m1.Perm m2) (hnd : (m1.map Prod.fst).Nodup) :
    formatMeta m1 = formatMeta m2
      ∧ formatMeta [("b", some "2"), ("a", some "1")] = "a=1 b=2" :=
  ⟨formatMeta_eq_of_perm hp hnd, by decide⟩

/-- C8 witness: the two iteration orders of the concrete map render
identically, and to the sorted string. -/
theorem c8_format_meta_witness :
    formatMeta [("b", some "2"), ("a", some "1")]
        = formatMeta [("a", some "1"), ("b", some "2")]
      ∧ formatMeta [("b", some "2"), ("a", some "1")] = "a=1 b=2" :=
  c8_format_meta_deterministic [("b", some "2"), ("a", some "1")]
    [("a", some "1"), ("b", some "2")]
    (List.Perm.swap ("a", some "1") ("b", some "2") []) (by decide)

/-- C9: on a run with at least one attempt and no successes, the summary
still takes the min/max/average branch (its guard checks only the total
count), and reports the untouched sentinel minimum `2^63 - 1` and maximum
`0`, since duration statistics are updated only on success. -/
theorem c9_all_failed_summary_sentinels (rs : List Stats) (hne : rs ≠ [])
    (hfail : ∀ s ∈ rs, s.Connected = false) :
    summaryShowsTripTimes (pingerSummarize (processAll initialState rs)) = true
      ∧ (pingerSummarize (processAll initialState rs)).MinDuration = 2 ^ 63 - 1
      ∧ (pingerSummarize (processAll initialState rs)).MaxDuration = 0 := by
  have htot : (processAll initialState rs).total = rs.length := by
    rw [processAll_total]
    simp [initialState]
  have hlen : 0 < rs.length := List.length_pos.mpr hne
  have hds := processAll_noconn_durStats rs hfail initialState
  have hmin : (processAll initialState rs).minDuration = maxInt64 :=
    congrArg Prod.fst hds
  have hmax : (processAll initialState rs).maxDuration = 0 :=
    congrArg (fun t => t.2.1) hds
  have hpos : (processAll initialState rs).total > 0 := by omega
  unfold pingerSummarize summaryShowsTripTimes
  rw [if_pos hpos]
  refine ⟨?_, hmin, hmax⟩
  simp only [bne_iff_ne]
  omega

/-- C9 witness: a one-attempt all-failed run takes the trip-times branch
with the sentinel min and zero max. -/
theorem c9_all_failed_witness :
    summaryShowsTripTimes (pingerSummarize (processAll initialState [demoFailure])) = true
      ∧ (pingerSummarize (processAll initialState [demoFailure])).MinDuration = 2 ^ 63 - 1
      ∧ (pingerSummarize (processAll initialState [demoFailure])).MaxDuration = 0 :=
  c9_all_failed_summary_sentinels [demoFailure] (by decide) (by decide)

/-- C10: with tracing disabled, every HTTP attempt returns `Address = ""`
and `DNSDuration = 0`, whatever the network did — the fields are copied
from a `Trace` whose callbacks were never installed. -/
theorem c10_http_no_trace_empty_address (observed : TraceRec) (env : HttpEnv) :
    (httpPing false observed env).Address = ""
      ∧ (httpPing false observed env).DNSDuration = 0 := by
  obtain ⟨re, dr, bb, be, e1, e2, e3⟩ := env
  cases re <;> cases dr <;> cases be <;> simp [httpPing, zeroTrace]

end CirclePinger
